import Mathlib

/-!
Verification development for the PYQuer server (`src/index.js`,
`src/models/AnalysisHistory.js`).

The paper-ingestion pipeline of `src/index.js` is shallowly embedded:
pure string manipulation becomes Lean functions on `String` (a wrapper
around `List Char`, matching the JS strings involved, which are ASCII);
the side-effecting request handlers become pure functions that thread an
explicit environment (file store, LLM oracle, persistence oracle) and
return a response together with the list of I/O events they perform.
External collaborators (pdf-parse, pdf-img-convert, Tesseract, the LLM
providers, MongoDB) are modelled as oracles in the environment, in line
with the design that treats them as opaque services.
-/

/-! ### ASCII case conversion

`String.prototype.toLowerCase` / `toUpperCase` restricted to ASCII, which is
all that the keyword comparison and model-name dispatch in `src/index.js`
rely on. -/

def asciiToLower (c : Char) : Char :=
  if 'A' ≤ c ∧ c ≤ 'Z' then Char.ofNat (c.toNat + 32) else c

def asciiToUpper (c : Char) : Char :=
  if 'a' ≤ c ∧ c ≤ 'z' then Char.ofNat (c.toNat - 32) else c

def strToLower (s : String) : String := ⟨s.data.map asciiToLower⟩

def strToUpper (s : String) : String := ⟨s.data.map asciiToUpper⟩

/-! ### Substring containment

`String.prototype.includes(needle)`: the needle occurs contiguously in the
receiver. -/

def containsSub (needle : List Char) : List Char → Bool
  | [] => needle.isEmpty
  | c :: rest => needle.isPrefixOf (c :: rest) || containsSub needle rest

/-- `hay.includes(needle)` from JS, on the character lists. -/
def strIncludes (hay needle : String) : Bool :=
  containsSub needle.data hay.data

/-! ### Data model -/

/-- One paper as sent to `/api/analyze` in `req.body.papers`
(shape produced by `/api/upload`, `src/index.js` lines 302-308). -/
structure UploadedPaper where
  fileId : String
  originalName : String
  subject : String
  year : Int
  needsOCR : Bool
deriving DecidableEq, Repr

/-- The parsed form produced by `parsePapers` (`src/index.js` lines 151-156). -/
structure ParsedPaper where
  text : String
  subject : String
  year : Int
  originalName : String
deriving DecidableEq, Repr

/-- A stored PDF in the `uploads` directory, abstracted by what the external
libraries would report about it: `directText` is `some t` when `pdf-parse`
succeeds returning text `t` and `none` when it throws; `pages` is `none` when
`pdf-img-convert` rasterization throws, and otherwise one entry per page,
`some t` when `Tesseract.recognize` succeeds on that page's image with text
`t` and `none` when it rejects. -/
structure StoredFile where
  directText : Option String
  pages : Option (List (Option String))
deriving DecidableEq, Repr

/-- The per-paper body of `isMathSubject`, `src/index.js` lines 164-177:
the disjunction of `subject.includes(...)` tests, where `subject` is the
already-lowercased subject string. -/
def subjectHasTechKeyword (subject : String) : Bool :=
  strIncludes subject "math" ||
  strIncludes subject "mathematics" ||
  strIncludes subject "calculus" ||
  strIncludes subject "algebra" ||
  strIncludes subject "theory of computation" ||
  strIncludes subject "toc" ||
  strIncludes subject "discrete mathematics" ||
  strIncludes subject "dm" ||
  strIncludes subject "compiler design" ||
  strIncludes subject "compiler" ||
  strIncludes subject "automata" ||
  strIncludes subject "formal languages" ||
  strIncludes subject "cd"

/-- `isMathSubject`, `src/index.js` lines 162-179: `papers.some` of the
keyword disjunction on each paper's lowercased subject. -/
def isMathSubject (papers : List ParsedPaper) : Bool :=
  papers.any fun paper => subjectHasTechKeyword (strToLower paper.subject)

/-- The fixed keyword list of `isMathSubject`, in source order. -/
def techKeywords : List String :=
  ["math", "mathematics", "calculus", "algebra", "theory of computation",
   "toc", "discrete mathematics", "dm", "compiler design", "compiler",
   "automata", "formal languages", "cd"]

/-! ### The prompt template

`generatePrompt`, `src/index.js` lines 182-279: a fixed template literal with
two interpolation points, the conditional technical-subject advisory note and
the assembled papers text at the end.  The literal is reproduced verbatim,
split at its two interpolation points. -/

def promptPartA : String :=
  "\nYou are an assistant that analyzes previous year questions. From the uploaded list of questions, provide a comprehensive analysis.\n\n"

def mathNote : String :=
  "NOTE: This analysis tool works best for theory subjects. For mathematics, theory of computation, discrete mathematics, compiler design, and similar technical subjects, the analysis will be more general and focus on question patterns and types rather than exact content."

def promptPartB : String :=
  "\n\nYou must return the results in EXACTLY this format, including ALL sections and subsections:\n\n1. Repeated Questions Analysis:\nIdentify repeated or semantically similar questions that appear in two or more papers. These may not be worded exactly the same but should have substantially the same meaning or ask about the same concept. Group them together and format in a table like this:\n\n| Question  | Repeated Count | Papers Appeared |\n|------------------|----------------|------------------|\n| Ensemble Learning (e.g., \"Discuss Ensemble Learning\", \"Explain Ensemble Learning in detail\") | 2 | Paper 1, Paper 3 |\n| Bagging and Boosting (e.g., \"Explain Bagging and Boosting\", \"Describe Bagging, Boosting, Stacking\") | 2 | Paper 2, Paper 4 |\n\nIf there are NO repeated or semantically similar questions, simply state:\n\"No repeated or semantically similar questions found across the papers.\"\n\n2. Questions Asking for Differences:\nIf there are questions asking for differences, format them in a table like this:\n| Question | Papers Appeared |\n|----------|-----------------|\n| Compare and contrast X and Y | Paper 1, Paper 3 |\n| Differentiate between A and B | Paper 2 |\n\nIf there are NO questions asking for differences, simply state:\n\"No questions asking for differences found in the papers.\"\n\n3. Questions Requiring Diagrams:\nIf there are questions requiring diagrams, format them in a table like this:\n| Question | Papers Appeared |\n|----------|-----------------|\n| Draw and explain the architecture of... | Paper 1 |\n| Illustrate the process flow of... | Paper 2, Paper 3 |\n\nIf there are NO questions requiring diagrams, simply state:\n\"No questions requiring diagrams found in the papers.\"\n\n4. Remaining Questions:\nList only those questions that are not already included in the above three sections (Repeated Questions, Differences, Diagrams).\nThese should be unique questions that have not been mentioned in any previous section.\nList them exactly as they appear in the input papers, using the format below:\n\nPaper 1:\nq1. a) [Question text]  \nb) [Question text]  \nc) [Question text]  \n\nq2. a) [Question text]  \nb) [Question text]  \nc) [Question text]  \n\n[and so on for all remaining papers…]\nDo not duplicate any question already covered in Sections 1, 2, or 3.\n\nMaintain blank lines between each question group for readability.\n\nDo not summarize or reword questions; use the exact original text from the papers.\n\n\n5. Study Recommendations:\nBased on the analysis of all papers, here are the key recommendations for students:\n\n1. Important Topics:\n   - Focus on frequently repeated topics\n   - Pay attention to topics that appeared in recent papers\n\n2. Question Patterns:\n   - Practice answering difference-based questions\n   - Be prepared for questions requiring diagrams\n   - Note if there's a trend towards more application-based or theoretical questions\n\n3. Preparation Strategy:\n   - Prioritize studying topics identified as 'Important Topics'\n   - Practice drawing diagrams for concepts listed in section 3\n   - Work through remaining questions from Section 4\n\n6. Predictions:\nBased on the analysis of all papers, provide predictions for the upcoming year's paper. Include specific topics or question types that are highly likely to appear.\n\nIMPORTANT:\n- **For the 'Papers Appeared' column, you MUST ONLY include the paper number (e.g., 'Paper 1', 'Paper 2'). You are ABSOLUTELY FORBIDDEN from including any year information (e.g., 'Paper 1 (2020)', 'Paper 1 (Unknown Year)'). Focus solely on the paper number provided in the INPUT PAPERS.**\n- Keep the exact format shown above for all sections.\n- For sections 1, 2, and 3, if no matching questions are found, use the \"No X found\" message instead of an empty table.\n- Do not add any extra sections or information before or after the specified sections.\n- Do not modify the question text from the input papers.\n- Use proper markdown table formatting only when there are actual items to display.\n- For technical subjects (mathematics, theory of computation, discrete mathematics, compiler design, etc.), focus on question patterns and types rather than exact content when generating recommendations.\n- Always start with Paper 1 in section 4.\n- Add blank lines between questions within a paper in section 4.\n- *Ensure section 5 is filled with actual, specific recommendations and not just the structure or placeholders.*\n- *Ensure section 6 is filled with actual, specific predictions and not just the structure or placeholders.*\n\nINPUT PAPERS:\n"

def promptPartC : String :=
  "\n"

/-- `generatePrompt(papersText, isMathSubject)`, `src/index.js` lines 182-279. -/
def generatePrompt (papersText : String) (isMath : Bool) : String :=
  promptPartA ++ (if isMath then mathNote else "") ++ promptPartB ++ papersText ++ promptPartC

/-- The `papersText` assembly of `/api/analyze`, `src/index.js` lines 335-338:
`parsedPapers.map((paper, index) => ...).join('\n')` with the template
`"\nPaper " + (index + 1) + ":\n" + paper.text + "\n"`. -/
def papersText (parsedPapers : List ParsedPaper) : String :=
  String.intercalate "\n" (parsedPapers.enum.map fun pi =>
    "\nPaper " ++ toString (pi.fst + 1) ++ ":\n" ++ pi.snd.text ++ "\n")

/-- Lines 335-340 of `src/index.js` composed: the prompt actually sent for a
given list of parsed papers. -/
def renderPrompt (parsedPapers : List ParsedPaper) : String :=
  generatePrompt (papersText parsedPapers) (isMathSubject parsedPapers)

/-! ### I/O events

The observable side effects of one analyze request.  Log statements and the
debug image write of `src/index.js` line 135 are not recorded; the events
cover the file reads, rasterization, per-page recognition, provider calls,
history persistence attempts and post-response file deletions. -/

/-- Per-paper history metadata stored by `AnalysisHistory.create`
(`src/index.js` lines 405-410, schema `src/models/AnalysisHistory.js`). -/
structure HistoryPaperInfo where
  originalName : String
  subject : String
  year : Int
  needsOCR : Bool
deriving DecidableEq, Repr

/-- The record handed to `AnalysisHistory.create` (`src/index.js` 403-415). -/
structure HistoryRecord where
  user : String
  papersInfo : List HistoryPaperInfo
  prompt : String
  papersText : String
  analysis : String
  modelUsed : String
deriving DecidableEq, Repr

inductive Event where
  /-- `fs.readFileSync` + `pdfParse` of a stored file (line 144-145). -/
  | fileRead (fileId : String)
  /-- `pdfImgConvert.convert(filePath, { width, height })` (line 130). -/
  | rasterize (fileId : String) (width height : Nat)
  /-- `Tesseract.recognize` on the image of page `page` (0-based, line 137). -/
  | ocrPage (fileId : String) (page : Nat)
  /-- the LLM request of the selected `switch` case (lines 344-379). -/
  | providerCall (provider : String)
  /-- the `AnalysisHistory.create` attempt (line 403). -/
  | persist (record : HistoryRecord)
  /-- the best-effort `fs.unlink` after responding (line 441). -/
  | deleteFile (fileId : String)
deriving DecidableEq, Repr

def Event.isProviderCall : Event → Bool
  | .providerCall _ => true
  | _ => false

/-- The `uploads` directory: `fileId ↦ stored file`. -/
abbrev FileStore := List (String × StoredFile)

/-- `fs.existsSync` + read: look the file up by id. -/
def FileStore.find : FileStore → String → Option StoredFile
  | [], _ => none
  | (k, f) :: rest, id => if k == id then some f else FileStore.find rest id

/-- The `ocrPage` events for pages `i, i+1, ..., i+n-1` of one file. -/
def pageEvents (fileId : String) : Nat → Nat → List Event
  | _, 0 => []
  | i, n + 1 => .ocrPage fileId i :: pageEvents fileId (i + 1) n

/-- The per-page OCR loop, `src/index.js` lines 132-140: starting from page
`i`, recognize each page image in order and append `pageText + '\n'`.  A
page whose recognition rejects (modelled `none`) makes the whole loop throw:
there is no try/catch inside the loop, so later pages are not reached. -/
def runPages (fileId : String) : Nat → List (Option String) → Except Unit String × List Event
  | _, [] => (.ok "", [])
  | i, none :: _ => (.error (), [.ocrPage fileId i])
  | i, some t :: rest =>
    let r := runPages fileId (i + 1) rest
    (r.fst.map fun tail => t ++ "\n" ++ tail, .ocrPage fileId i :: r.snd)

/-- The OCR branch of `parsePapers`, `src/index.js` lines 128-141: rasterize
the document at width 2200, height 3000, then run the page loop.  A
rasterization failure (`pages = none`) also throws. -/
def runOCR (fileId : String) (f : StoredFile) : Except Unit String × List Event :=
  match f.pages with
  | none => (.error (), [.rasterize fileId 2200 3000])
  | some pages =>
    let r := runPages fileId 0 pages
    (r.fst, .rasterize fileId 2200 3000 :: r.snd)

/-- One iteration of the `parsePapers` loop, `src/index.js` lines 121-157:
skip a paper whose file does not exist (`.ok none`), otherwise extract its
text by OCR or directly; `.error` models an exception escaping the loop. -/
def parsePaper (store : FileStore) (paper : UploadedPaper) :
    Except Unit (Option ParsedPaper) × List Event :=
  match store.find paper.fileId with
  | none => (.ok none, [])
  | some f =>
    if paper.needsOCR then
      match runOCR paper.fileId f with
      | (.error e, evs) => (.error e, evs)
      | (.ok text, evs) =>
        (.ok (some { text := text, subject := paper.subject, year := paper.year,
                     originalName := paper.originalName }), evs)
    else
      match f.directText with
      | none => (.error (), [.fileRead paper.fileId])
      | some t =>
        (.ok (some { text := t, subject := paper.subject, year := paper.year,
                     originalName := paper.originalName }), [.fileRead paper.fileId])

/-- `parsePapers`, `src/index.js` lines 119-159: fold the loop over the
requested papers, accumulating the parsed ones in input order; an exception
in any iteration aborts the whole function. -/
def parsePapers (store : FileStore) : List UploadedPaper →
    Except Unit (List ParsedPaper) × List Event
  | [] => (.ok [], [])
  | paper :: rest =>
    match parsePaper store paper with
    | (.error e, evs) => (.error e, evs)
    | (.ok none, evs) =>
      let r := parsePapers store rest
      (r.fst, evs ++ r.snd)
    | (.ok (some pp), evs) =>
      match parsePapers store rest with
      | (.ok l, evs2) => (.ok (pp :: l), evs ++ evs2)
      | (.error e, evs2) => (.error e, evs ++ evs2)

/-- The `needsOCR` decision of `/api/upload`, `src/index.js` lines 291-300:
`pdf-parse` throwing, or returning falsy or whitespace-only text, marks the
file as needing OCR; the handler itself never fails on such a file. -/
def uploadNeedsOCR (f : StoredFile) : Bool :=
  match f.directText with
  | none => true
  | some t => t == "" || t.trim == ""

/-! ### The `/api/analyze` handler -/

/-- The environment of one request: the file store, the LLM providers as an
oracle from (lowercased model name, prompt) to a normalized result, whether
`AnalysisHistory.create` would succeed, and the user id decoded from a valid
`Authorization` bearer token (if any). -/
structure Env where
  store : FileStore
  llm : String → String → Except String String
  persistOk : Bool
  userId : Option String

inductive AnalyzeResponse where
  /-- `res.status(400).json({ error: msg })` -/
  | badRequest (msg : String)
  /-- `res.status(500).json({ error: msg, ... })` -/
  | serverError (msg : String)
  /-- the `res.json` of line 427: analysis, papersText and prompt. -/
  | success (analysis papersText prompt : String)
deriving DecidableEq, Repr

/-- The cases of `switch (model.toLowerCase())`, `src/index.js` lines 344-382. -/
def supportedModel (model : String) : Bool :=
  let m := strToLower model
  m == "gemini" || m == "mistral" || m == "cohere"

/-- The record built at `AnalysisHistory.create`, `src/index.js` 403-415:
note the literal `needsOCR: false` for every paper. -/
def mkHistoryRecord (uid : String) (parsedPapers : List ParsedPaper)
    (prompt ptext analysis model : String) : HistoryRecord :=
  { user := uid,
    papersInfo := parsedPapers.map fun p =>
      { originalName := p.originalName, subject := p.subject, year := p.year,
        needsOCR := false },
    prompt := prompt, papersText := ptext, analysis := analysis,
    modelUsed := model }

/-- The `/api/analyze` handler, `src/index.js` lines 322-463, for a request
body `{ papers, model }`.  The empty-papers check precedes all I/O; the
model `switch` runs only after `parsePapers`; the three provider cases are
the `llm` oracle keyed by the lowercased model name; `AnalysisHistory.create`
is awaited inside the same `try` as the provider call, so its failure is
caught by `catch (apiError)` and produces the provider-error 500; the
best-effort deletions run after a successful `res.json`. -/
def analyze (env : Env) (papers : List UploadedPaper) (model : String) :
    AnalyzeResponse × List Event :=
  if papers.isEmpty then
    (.badRequest "No papers provided for analysis", [])
  else
    match parsePapers env.store papers with
    | (.error _, evs) => (.serverError "Error analyzing paper", evs)
    | (.ok parsedPapers, evs) =>
      if parsedPapers.isEmpty then
        (.badRequest "No valid papers found for analysis", evs)
      else
        let ptext := papersText parsedPapers
        let prompt := generatePrompt ptext (isMathSubject parsedPapers)
        if supportedModel model then
          let m := strToLower model
          match env.llm m prompt with
          | .error _ =>
            (.serverError ("Error analyzing with " ++ strToUpper model ++
               " API. Please check your API key and try again."),
             evs ++ [.providerCall m])
          | .ok analysis =>
            match env.userId with
            | none =>
              (.success analysis ptext prompt,
               evs ++ [.providerCall m] ++ papers.map fun p => .deleteFile p.fileId)
            | some uid =>
              let record := mkHistoryRecord uid parsedPapers prompt ptext analysis model
              if env.persistOk then
                (.success analysis ptext prompt,
                 evs ++ [.providerCall m, .persist record] ++
                   papers.map fun p => .deleteFile p.fileId)
              else
                (.serverError ("Error analyzing with " ++ strToUpper model ++
                   " API. Please check your API key and try again."),
                 evs ++ [.providerCall m, .persist record])
        else
          (.badRequest "Invalid model specified", evs)

/-! ### Statement helpers and concrete fixtures -/

/-- The rendered 1-based paper label followed by the newline that separates it
from the paper's text in a `papersText` segment. -/
def labelChars (i : Nat) : List Char := ("Paper " ++ toString i ++ ":\n").data

/-- The characters of the `i`-th segment of `papersText`:
`"\nPaper i:\n" + text + "\n"`. -/
def segChars (i : Nat) (p : ParsedPaper) : List Char :=
  '\n' :: labelChars i ++ p.text.data ++ ['\n']

/-- The characters of `papersText` from label `i` on: the segments in input
order, joined by the `'\n'` separator of `.join('\n')` (so consecutive
papers are separated by a blank line: `"\n" + "\n" + "\n"` between the end
of one text and the next label). -/
def segsFrom : Nat → List ParsedPaper → List Char
  | _, [] => []
  | i, [p] => segChars i p
  | i, p :: q :: ps => segChars i p ++ '\n' :: segsFrom (i + 1) (q :: ps)

/-- `hasSegsFrom i l s`: scanning `s` left to right, the labels
`"Paper i:"`, `"Paper (i+1):"`, ... each appear, in that order, each
immediately followed by the corresponding paper's text. -/
def hasSegsFrom : Nat → List ParsedPaper → List Char → Prop
  | _, [], _ => True
  | i, p :: ps, s =>
    ∃ a b, s = a ++ (labelChars i ++ p.text.data) ++ b ∧ hasSegsFrom (i + 1) ps b

/- Concrete fixtures used by witnesses and counterexamples. -/

/-- A stored PDF whose direct extraction succeeds. -/
def file1 : StoredFile := { directText := some "What is a compiler?", pages := some [] }

/-- A scanned PDF: direct extraction throws, one OCR page succeeds. -/
def scanFile : StoredFile := { directText := none, pages := some [some "Scanned question"] }

/-- A scanned PDF whose second page's recognition rejects. -/
def badFile : StoredFile :=
  { directText := none, pages := some [some "alpha", none, some "beta"] }

def store0 : FileStore := [("f1", file1)]

def store5 : FileStore := [("f2", scanFile)]

def paper1 : UploadedPaper :=
  { fileId := "f1", originalName := "p1.pdf", subject := "History", year := 2024,
    needsOCR := false }

def paper2 : UploadedPaper :=
  { fileId := "f2", originalName := "scan.pdf", subject := "History", year := 2024,
    needsOCR := true }

def parsed1 : ParsedPaper :=
  { text := "What is a compiler?", subject := "History", year := 2024,
    originalName := "p1.pdf" }

def parsed2 : ParsedPaper :=
  { text := "State the pumping lemma.", subject := "Automata Theory", year := 2023,
    originalName := "p2.pdf" }

/-- An LLM oracle that always answers. -/
def okLLM : String → String → Except String String := fun _ _ => .ok "ANALYSIS"

/-- Unauthenticated request environment over `store0`. -/
def env0 : Env := { store := store0, llm := okLLM, persistOk := true, userId := none }

/-- Authenticated environment whose history store is down. -/
def env6 : Env := { store := store0, llm := okLLM, persistOk := false, userId := some "u1" }

/-- Decidable equality for `Except`, used to evaluate concrete runs. -/
instance exceptDecEq {e a : Type} [DecidableEq e] [DecidableEq a] :
    DecidableEq (Except e a)
  | .error x, .error y =>
    if h : x = y then .isTrue (by rw [h]) else .isFalse (fun hc => by cases hc; exact h rfl)
  | .error _, .ok _ => .isFalse (fun hc => Except.noConfusion hc)
  | .ok _, .error _ => .isFalse (fun hc => Except.noConfusion hc)
  | .ok x, .ok y =>
    if h : x = y then .isTrue (by rw [h]) else .isFalse (fun hc => by cases hc; exact h rfl)

def missPaper : UploadedPaper :=
  { fileId := "nope", originalName := "gone.pdf", subject := "History", year := 2024,
    needsOCR := false }

def envOCR : Env := { store := store5, llm := okLLM, persistOk := true, userId := none }


/-! ## Helper lemmas -/

theorem subjectHasTechKeyword_iff (s : String) :
    subjectHasTechKeyword s = true ↔ ∃ kw ∈ techKeywords, strIncludes s kw = true := by
  simp only [subjectHasTechKeyword, Bool.or_eq_true, techKeywords, List.mem_cons,
    List.not_mem_nil, or_false, exists_eq_or_imp, exists_eq_left]
  tauto

theorem intercalate_go_data (l : List String) (acc s : String) :
    (String.intercalate.go acc s l).data =
      acc.data ++ (l.map fun b => s.data ++ b.data).flatten := by
  induction l generalizing acc with
  | nil => simp [String.intercalate.go]
  | cons b bs ih => simp [String.intercalate.go, ih]

theorem intercalate_data (s a : String) (l : List String) :
    (String.intercalate s (a :: l)).data =
      a.data ++ (l.map fun b => s.data ++ b.data).flatten := by
  rw [String.intercalate, intercalate_go_data]

theorem segStr_data (i : Nat) (p : ParsedPaper) :
    ("\nPaper " ++ toString (i + 1) ++ ":\n" ++ p.text ++ "\n").data =
      segChars (i + 1) p := by
  simp [segChars, labelChars]

theorem newline_data : "\n".data = ['\n'] := rfl

theorem tail_flatten (l : List ParsedPaper) : ∀ n : Nat, l ≠ [] →
    ((l.enumFrom n).map (fun pi =>
        ['\n'] ++ ("\nPaper " ++ toString (pi.fst + 1) ++ ":\n" ++ pi.snd.text ++ "\n").data)).flatten =
      '\n' :: segsFrom (n + 1) l := by
  induction l with
  | nil => intro n h; exact absurd rfl h
  | cons q qs ih =>
    intro n _
    cases qs with
    | nil =>
      simp only [List.enumFrom_cons, List.enumFrom_nil, List.map_cons, List.map_nil,
        List.flatten_cons, List.flatten_nil, List.append_nil, segsFrom, segStr_data]
      rfl
    | cons r rs =>
      rw [List.enumFrom_cons, List.map_cons, List.flatten_cons, ih (n + 1) (by simp),
        segStr_data]
      simp [segsFrom, List.append_assoc]

theorem papersText_data_from (l : List ParsedPaper) :
    ∀ n, (String.intercalate "\n" ((l.enumFrom n).map fun pi =>
        "\nPaper " ++ toString (pi.fst + 1) ++ ":\n" ++ pi.snd.text ++ "\n")).data =
      segsFrom (n + 1) l := by
  induction l with
  | nil => intro n; simp [segsFrom, String.intercalate]
  | cons p ps _ =>
    intro n
    cases ps with
    | nil =>
      simp only [List.enumFrom_cons, List.enumFrom_nil, List.map_cons, List.map_nil,
        intercalate_data, List.flatten_nil, List.append_nil, segsFrom]
      exact segStr_data n p
    | cons q qs =>
      rw [List.enumFrom_cons, List.map_cons, intercalate_data, List.map_map]
      rw [show ((fun b => "\n".data ++ String.data b) ∘ fun pi =>
            "\nPaper " ++ toString (pi.fst + 1) ++ ":\n" ++ pi.snd.text ++ "\n") =
          (fun pi : Nat × ParsedPaper =>
            ['\n'] ++ ("\nPaper " ++ toString (pi.fst + 1) ++ ":\n" ++ pi.snd.text ++ "\n").data)
          from rfl]
      rw [tail_flatten (q :: qs) (n + 1) (by simp), segStr_data]
      simp [segsFrom, List.append_assoc]

theorem papersText_data (l : List ParsedPaper) :
    (papersText l).data = segsFrom 1 l := by
  have h := papersText_data_from l 0
  simpa [papersText, List.enum] using h

theorem hasSegsFrom_concat (l : List ParsedPaper) :
    ∀ (i : Nat) (pre suf : List Char), hasSegsFrom i l (pre ++ segsFrom i l ++ suf) := by
  induction l with
  | nil => intro i pre suf; trivial
  | cons p ps ih =>
    intro i pre suf
    cases ps with
    | nil =>
      refine ⟨pre ++ ['\n'], '\n' :: suf, ?_, trivial⟩
      simp [segsFrom, segChars, List.append_assoc]
    | cons q qs =>
      refine ⟨pre ++ ['\n'], '\n' :: '\n' :: (segsFrom (i + 1) (q :: qs) ++ suf), ?_, ?_⟩
      · simp [segsFrom, segChars, List.append_assoc]
      · have h := ih (i + 1) ['\n', '\n'] suf
        simpa using h

/-! ## Claims -/

/-- C1: `isMathSubject` returns true iff some paper's subject,
case-insensitively, contains one of the fixed keyword substrings; in
particular "Compiler Design" classifies as technical and "History" does not,
and subjects differing only in letter case classify identically. -/
theorem isMathSubject_keyword_spec :
    (∀ papers : List ParsedPaper, isMathSubject papers = true ↔
        ∃ p ∈ papers, ∃ kw ∈ techKeywords, strIncludes (strToLower p.subject) kw = true) ∧
    isMathSubject [⟨"", "Compiler Design", 0, ""⟩] = true ∧
    isMathSubject [⟨"", "History", 0, ""⟩] = false ∧
    (∀ papers qapers : List ParsedPaper,
        papers.map (fun p => strToLower p.subject) = qapers.map (fun p => strToLower p.subject) →
        isMathSubject papers = isMathSubject qapers) := by
  refine ⟨?_, by decide, by decide, ?_⟩
  · intro papers
    simp only [isMathSubject, List.any_eq_true, subjectHasTechKeyword_iff]
  · intro papers qapers h
    induction papers generalizing qapers with
    | nil =>
      cases qapers with
      | nil => rfl
      | cons q qs => simp at h
    | cons p ps ih =>
      cases qapers with
      | nil => simp at h
      | cons q qs =>
        simp only [List.map_cons, List.cons.injEq] at h
        obtain ⟨h1, h2⟩ := h
        simp only [isMathSubject, List.any_cons] at *
        rw [h1, ih qs h2]

/-- Witness for C1: the case-insensitivity part applied to the spec's own
example pair "MATH 101" / "math 101". -/
theorem isMathSubject_keyword_spec_witness :
    isMathSubject [⟨"", "MATH 101", 0, ""⟩] = isMathSubject [⟨"", "math 101", 0, ""⟩] :=
  isMathSubject_keyword_spec.2.2.2 _ _ (by decide)

/-- C2: for a non-empty input, `papersText` is exactly the 1-based
"Paper i:"-labelled segments of the papers, in input order, joined by the
blank-line separator, and consequently the labels "Paper 1:" … "Paper N:"
occur in it in order, each immediately prefixing its paper's text. -/
theorem papersText_numbering (papers : List ParsedPaper) (h : papers ≠ []) :
    (papersText papers).data = segsFrom 1 papers ∧
    hasSegsFrom 1 papers (papersText papers).data := by
  refine ⟨papersText_data papers, ?_⟩
  rw [papersText_data papers]
  have hc := hasSegsFrom_concat papers 1 [] []
  simpa using hc

/-- Witness for C2 at a concrete two-paper input. -/
theorem papersText_numbering_witness :
    (papersText [parsed1, parsed2]).data = segsFrom 1 [parsed1, parsed2] ∧
    hasSegsFrom 1 [parsed1, parsed2] (papersText [parsed1, parsed2]).data :=
  papersText_numbering [parsed1, parsed2] (by decide)

/-! ## Pipeline helper lemmas -/

theorem runPages_events (fid : String) (pages : List (Option String)) :
    ∀ (i : Nat) (e : Event), e ∈ (runPages fid i pages).snd → ∃ j, e = .ocrPage fid j := by
  induction pages with
  | nil => intro i e he; simp [runPages] at he
  | cons o rest ih =>
    intro i e he
    cases o with
    | none =>
      simp only [runPages, List.mem_singleton] at he
      exact ⟨i, he⟩
    | some t =>
      simp only [runPages, List.mem_cons] at he
      rcases he with h | h
      · exact ⟨i, h⟩
      · exact ih (i + 1) e h

theorem runOCR_events (fid : String) (f : StoredFile) (e : Event)
    (he : e ∈ (runOCR fid f).snd) :
    e = .rasterize fid 2200 3000 ∨ ∃ j, e = .ocrPage fid j := by
  cases hp : f.pages with
  | none =>
    rw [runOCR, hp] at he
    simp at he
    exact .inl he
  | some pages =>
    rw [runOCR, hp] at he
    simp only [List.mem_cons] at he
    rcases he with h | h
    · exact .inl h
    · exact .inr (runPages_events fid pages 0 e h)

/-- Every event of `parsePaper` is a file read, a 2200×3000 rasterization, or
a page recognition. -/
theorem parsePaper_events (store : FileStore) (p : UploadedPaper) (e : Event)
    (he : e ∈ (parsePaper store p).snd) :
    (∃ id, e = .fileRead id) ∨ (∃ id, e = .rasterize id 2200 3000) ∨
      ∃ id j, e = .ocrPage id j := by
  cases hf : FileStore.find store p.fileId with
  | none => simp [parsePaper, hf] at he
  | some f =>
    by_cases hocr : p.needsOCR = true
    · rcases hruns : runOCR p.fileId f with ⟨res, evs⟩
      have hsub : e ∈ evs := by
        cases res with
        | error err => simpa [parsePaper, hf, hocr, hruns] using he
        | ok t => simpa [parsePaper, hf, hocr, hruns] using he
      rcases runOCR_events p.fileId f e (by rw [hruns]; exact hsub) with h | h
      · exact .inr (.inl ⟨p.fileId, h⟩)
      · rcases h with ⟨j, hj⟩; exact .inr (.inr ⟨p.fileId, j, hj⟩)
    · cases hd : f.directText with
      | none =>
        simp only [parsePaper, hf, hocr, if_false, Bool.false_eq_true, hd,
          List.mem_singleton] at he
        exact .inl ⟨p.fileId, he⟩
      | some t =>
        simp only [parsePaper, hf, hocr, if_false, Bool.false_eq_true, hd,
          List.mem_singleton] at he
        exact .inl ⟨p.fileId, he⟩

theorem parsePapers_events (store : FileStore) (papers : List UploadedPaper) :
    ∀ e ∈ (parsePapers store papers).snd,
      (∃ id, e = .fileRead id) ∨ (∃ id, e = .rasterize id 2200 3000) ∨
        ∃ id j, e = .ocrPage id j := by
  induction papers with
  | nil => intro e he; simp [parsePapers] at he
  | cons p rest ih =>
    intro e he
    rw [parsePapers] at he
    rcases hp : parsePaper store p with ⟨r, evs⟩
    rw [hp] at he
    have hpe : ∀ e ∈ evs, (∃ id, e = Event.fileRead id) ∨
        (∃ id, e = Event.rasterize id 2200 3000) ∨ ∃ id j, e = Event.ocrPage id j := by
      intro e he
      exact parsePaper_events store p e (by rw [hp]; exact he)
    cases r with
    | error err => exact hpe e he
    | ok opt =>
      cases opt with
      | none =>
        simp only [List.mem_append] at he
        rcases he with h | h
        · exact hpe e h
        · exact ih e h
      | some pp =>
        rcases htail : parsePapers store rest with ⟨r2, evs2⟩
        rw [htail] at he
        have hmem : e ∈ evs ++ evs2 := by
          cases r2 with
          | error e2 => simpa using he
          | ok l2 => simpa using he
        rcases List.mem_append.mp hmem with h | h
        · exact hpe e h
        · exact ih e (by rw [htail]; exact h)

theorem parsePapers_all_missing (store : FileStore) (papers : List UploadedPaper)
    (h : (papers.all fun p => (FileStore.find store p.fileId).isNone) = true) :
    parsePapers store papers = (.ok [], []) := by
  induction papers with
  | nil => rfl
  | cons p rest ih =>
    simp only [List.all_cons, Bool.and_eq_true] at h
    obtain ⟨h1, h2⟩ := h
    have hf : FileStore.find store p.fileId = none := by
      cases hf : FileStore.find store p.fileId with
      | none => rfl
      | some f => rw [hf] at h1; simp at h1
    have hp : parsePaper store p = (.ok none, []) := by
      simp [parsePaper, hf]
    rw [parsePapers, hp, ih h2]
    rfl


theorem parsePapers_ok_names (store : FileStore) (papers : List UploadedPaper) :
    ∀ l, (parsePapers store papers).fst = .ok l →
      l.map (fun pp => (pp.originalName, pp.subject, pp.year)) =
        (papers.filter fun p => (FileStore.find store p.fileId).isSome).map
          (fun p => (p.originalName, p.subject, p.year)) := by
  induction papers with
  | nil =>
    intro l hl
    simp only [parsePapers] at hl
    cases hl
    rfl
  | cons p rest ih =>
    intro l hl
    rw [parsePapers] at hl
    cases hf : FileStore.find store p.fileId with
    | none =>
      have hp : parsePaper store p = (.ok none, []) := by simp [parsePaper, hf]
      rw [hp] at hl
      simp only at hl
      rw [List.filter_cons_of_neg (by simp [hf])]
      exact ih l hl
    | some f =>
      rcases hp : parsePaper store p with ⟨r, evs⟩
      rw [hp] at hl
      cases r with
      | error err => simp at hl
      | ok opt =>
        cases opt with
        | none =>
          exfalso
          by_cases hocr : p.needsOCR = true
          · rcases hruns : runOCR p.fileId f with ⟨res, evs2⟩
            cases res with
            | error e2 => simp [parsePaper, hf, hocr, hruns] at hp
            | ok t => simp [parsePaper, hf, hocr, hruns] at hp
          · cases hd : f.directText with
            | none => simp [parsePaper, hf, hocr, hd] at hp
            | some t => simp [parsePaper, hf, hocr, hd] at hp
        | some pp =>
          rcases htail : parsePapers store rest with ⟨r2, evs2⟩
          rw [htail] at hl
          cases r2 with
          | error e2 => simp at hl
          | ok l2 =>
            simp only at hl
            cases hl
            have hfields : pp.originalName = p.originalName ∧ pp.subject = p.subject ∧
                pp.year = p.year := by
              by_cases hocr : p.needsOCR = true
              · rcases hruns : runOCR p.fileId f with ⟨res, evs3⟩
                cases res with
                | error e2 => simp [parsePaper, hf, hocr, hruns] at hp
                | ok t =>
                  simp only [parsePaper, hf, hocr, if_true, hruns] at hp
                  cases hp
                  exact ⟨rfl, rfl, rfl⟩
              · cases hd : f.directText with
                | none => simp [parsePaper, hf, hocr, hd] at hp
                | some t =>
                  simp only [parsePaper, hf, hocr, if_false, Bool.false_eq_true, hd] at hp
                  cases hp
                  exact ⟨rfl, rfl, rfl⟩
            rw [List.filter_cons_of_pos (by simp [hf])]
            simp only [List.map_cons]
            rw [hfields.1, hfields.2.1, hfields.2.2]
            exact congrArg _ (ih l2 (by rw [htail]))

theorem runPages_all_ok (fid : String) (ts : List String) :
    ∀ i : Nat, ∃ s, runPages fid i (ts.map some) = (.ok s, pageEvents fid i ts.length) ∧
      s.data = (ts.map fun t => t.data ++ ['\n']).flatten := by
  induction ts with
  | nil => intro i; exact ⟨"", rfl, rfl⟩
  | cons t rest ih =>
    intro i
    obtain ⟨s, hs, hdata⟩ := ih (i + 1)
    refine ⟨t ++ "\n" ++ s, ?_, ?_⟩
    · simp only [List.map_cons, runPages, hs, Except.map, pageEvents, List.length_cons]
    · simp [hdata, List.append_assoc]

theorem runPages_fail (fid : String) (ts : List String) (rest : List (Option String)) :
    ∀ i : Nat, runPages fid i (ts.map some ++ none :: rest) =
      (.error (), pageEvents fid i (ts.length + 1)) := by
  induction ts with
  | nil => intro i; rfl
  | cons t ts2 ih =>
    intro i
    simp only [List.map_cons, List.cons_append, runPages, List.append_eq, ih (i + 1),
      Except.map, pageEvents, List.length_cons]

theorem parsedPaper_fields_inj (ps : List ParsedPaper) :
    ∀ qs : List ParsedPaper,
      ps.map (fun p => (p.text, p.subject, p.year, p.originalName)) =
        qs.map (fun p => (p.text, p.subject, p.year, p.originalName)) → ps = qs := by
  induction ps with
  | nil =>
    intro qs h
    cases qs with
    | nil => rfl
    | cons q qs2 => simp at h
  | cons p ps2 ih =>
    intro qs h
    cases qs with
    | nil => simp at h
    | cons q qs2 =>
      simp only [List.map_cons, List.cons.injEq, Prod.mk.injEq] at h
      obtain ⟨⟨h1, h2, h3, h4⟩, h5⟩ := h
      have : p = q := by
        cases p; cases q
        simp_all
      rw [this, ih qs2 h5]

/-- Classification of every event an `/api/analyze` run can emit. -/
theorem analyze_events (env : Env) (papers : List UploadedPaper) (model : String) :
    ∀ e ∈ (analyze env papers model).snd,
      (∃ id, e = .fileRead id) ∨ (∃ id, e = .rasterize id 2200 3000) ∨
      (∃ id j, e = .ocrPage id j) ∨ (e = .providerCall (strToLower model)) ∨
      (∃ uid l prompt ptext a, env.userId = some uid ∧
         e = .persist (mkHistoryRecord uid l prompt ptext a model)) ∨
      (∃ id, e = .deleteFile id) := by
  intro e he
  have lift3 : ((∃ id, e = Event.fileRead id) ∨ (∃ id, e = Event.rasterize id 2200 3000) ∨
      ∃ id j, e = Event.ocrPage id j) →
      (∃ id, e = Event.fileRead id) ∨ (∃ id, e = Event.rasterize id 2200 3000) ∨
      (∃ id j, e = Event.ocrPage id j) ∨ (e = Event.providerCall (strToLower model)) ∨
      (∃ uid l prompt ptext a, env.userId = some uid ∧
         e = Event.persist (mkHistoryRecord uid l prompt ptext a model)) ∨
      (∃ id, e = Event.deleteFile id) := by
    rintro (h | h | h)
    · exact .inl h
    · exact .inr (.inl h)
    · exact .inr (.inr (.inl h))
  simp only [analyze] at he
  split at he
  · simp at he
  · split at he
    case h_1 r evs heq =>
      exact lift3 (parsePapers_events env.store papers e (by rw [heq]; exact he))
    case h_2 r evs heq =>
      have hevs : ∀ e2 ∈ evs, e2 ∈ (parsePapers env.store papers).snd :=
        fun e2 he2 => by rw [heq]; exact he2
      have hev : e ∈ evs → _ := fun h =>
        lift3 (parsePapers_events env.store papers e (hevs e h))
      split at he
      · exact hev he
      · split at he
        · split at he
          · rcases List.mem_append.mp he with h | h
            · exact hev h
            · simp only [List.mem_singleton] at h
              exact .inr (.inr (.inr (.inl h)))
          · split at he
            · rcases List.mem_append.mp he with h | h
              · rcases List.mem_append.mp h with h2 | h2
                · exact hev h2
                · simp only [List.mem_singleton] at h2
                  exact .inr (.inr (.inr (.inl h2)))
              · rcases List.mem_map.mp h with ⟨p, _, hp⟩
                exact .inr (.inr (.inr (.inr (.inr ⟨p.fileId, hp.symm⟩))))
            · rename_i uid huid
              split at he
              · rcases List.mem_append.mp he with h | h
                · rcases List.mem_append.mp h with h2 | h2
                  · exact hev h2
                  · simp only [List.mem_cons, List.mem_singleton, List.not_mem_nil,
                      or_false] at h2
                    rcases h2 with h3 | h3
                    · exact .inr (.inr (.inr (.inl h3)))
                    · exact .inr (.inr (.inr (.inr (.inl
                        ⟨uid, _, _, _, _, huid, h3⟩))))
                · rcases List.mem_map.mp h with ⟨p, _, hp⟩
                  exact .inr (.inr (.inr (.inr (.inr ⟨p.fileId, hp.symm⟩))))
              · rcases List.mem_append.mp he with h | h
                · exact hev h
                · simp only [List.mem_cons, List.mem_singleton, List.not_mem_nil,
                    or_false] at h
                  rcases h with h3 | h3
                  · exact .inr (.inr (.inr (.inl h3)))
                  · exact .inr (.inr (.inr (.inr (.inl
                      ⟨uid, _, _, _, _, huid, h3⟩))))
        · exact hev he

/-- C3, counterexample: with one stored, directly-extractable paper and the
unsupported selector "davinci", the request is indeed rejected as an input
error and no provider is contacted, but the trace is not empty: the paper's
file was read (and parsed) before the model `switch` ran, refuting "no I/O
performed". -/
theorem analyze_invalid_model_does_io :
    (analyze env0 [paper1] "davinci").fst = .badRequest "Invalid model specified" ∧
    (analyze env0 [paper1] "davinci").snd = [.fileRead "f1"] ∧
    [Event.fileRead "f1"] ≠ ([] : List Event) := by decide

/-- C3, amended: a request with no papers is rejected immediately as an input
error with no I/O performed; a request whose provider selector is not one of
the supported enumeration never contacts any LLM provider and, whenever paper
parsing completes without an exception, is rejected as an input error —
but paper-parsing file I/O does happen before that rejection. -/
theorem analyze_input_rejection :
    (∀ env model, analyze env ([] : List UploadedPaper) model =
      (.badRequest "No papers provided for analysis", [])) ∧
    (∀ env papers model, supportedModel model = false →
      (∀ e ∈ (analyze env papers model).snd, e.isProviderCall = false) ∧
      (∀ l, (parsePapers env.store papers).fst = .ok l →
        ∃ msg, (analyze env papers model).fst = .badRequest msg)) := by
  constructor
  · intro env model; rfl
  · intro env papers model hm
    constructor
    · intro e he
      simp only [analyze, hm, Bool.false_eq_true, if_false] at he
      split at he
      · simp at he
      · split at he
        case h_1 r evs heq =>
          rcases parsePapers_events env.store papers e (by rw [heq]; exact he) with
            ⟨id, h⟩ | ⟨id, h⟩ | ⟨id, j, h⟩ <;> subst h <;> rfl
        case h_2 r evs heq =>
          split at he <;>
          · rcases parsePapers_events env.store papers e (by rw [heq]; exact he) with
              ⟨id, h⟩ | ⟨id, h⟩ | ⟨id, j, h⟩ <;> subst h <;> rfl
    · intro l hl
      by_cases hpe : papers.isEmpty
      · exact ⟨"No papers provided for analysis", by simp [analyze, hpe]⟩
      · rcases hparse : parsePapers env.store papers with ⟨r, evs⟩
        rw [hparse] at hl
        simp only at hl
        subst hl
        by_cases hle : l.isEmpty
        · exact ⟨"No valid papers found for analysis", by
            simp [analyze, hpe, hparse, hle]⟩
        · exact ⟨"Invalid model specified", by
            simp [analyze, hpe, hparse, hle, hm]⟩

/-- Witness for C3 at concrete inputs. -/
theorem analyze_input_rejection_witness :
    analyze env0 ([] : List UploadedPaper) "gemini" =
      (.badRequest "No papers provided for analysis", []) ∧
    (∀ e ∈ (analyze env0 [paper1] "davinci").snd, e.isProviderCall = false) ∧
    (∃ msg, (analyze env0 [paper1] "davinci").fst = .badRequest msg) :=
  ⟨analyze_input_rejection.1 env0 "gemini",
   (analyze_input_rejection.2 env0 [paper1] "davinci" (by decide)).1,
   (analyze_input_rejection.2 env0 [paper1] "davinci" (by decide)).2 [parsed1] (by decide)⟩

/-- C4, counterexample: for a document whose second page's recognition fails,
the OCR loop does not produce a degraded result with an empty string for that
page (which would be "alpha\n" + "\n" + "beta\n"); it throws, and the third
page is never processed. -/
theorem ocr_page_failure_cex :
    (runOCR "g" badFile).fst = .error () ∧
    (runOCR "g" badFile).fst ≠ .ok ("alpha" ++ "\n" ++ "" ++ "\n" ++ "beta" ++ "\n") ∧
    Event.ocrPage "g" 2 ∉ (runOCR "g" badFile).snd := by decide

/-- C4, amended: if rasterization fails, or if text recognition fails for one
page, OCR of the whole document is aborted: the exception propagates out of
`parsePapers`, and pages after the failing one are not processed. -/
theorem ocr_failure_aborts :
    (∀ fid (f : StoredFile), f.pages = none →
       runOCR fid f = (.error (), [.rasterize fid 2200 3000])) ∧
    (∀ fid (f : StoredFile) (ts : List String) (rest : List (Option String)),
       f.pages = some (ts.map some ++ none :: rest) →
       runOCR fid f =
         (.error (), .rasterize fid 2200 3000 :: pageEvents fid 0 (ts.length + 1))) := by
  constructor
  · intro fid f h; simp only [runOCR, h]
  · intro fid f ts rest h
    simp only [runOCR, h, runPages_fail fid ts rest 0]

/-- Witness for C4 at the concrete failing document. -/
theorem ocr_failure_aborts_witness :
    runOCR "g" badFile =
      (.error (), .rasterize "g" 2200 3000 :: pageEvents "g" 0 2) :=
  ocr_failure_aborts.2 "g" badFile ["alpha"] [some "beta"] rfl

/-- C5: direct extraction at upload never surfaces a fatal error — a parse
failure, and likewise an empty or whitespace-only extraction result, mark the
paper `needsOCR = true`; and during analysis a paper flagged `needsOCR` gets
the OCR output as its text. -/
theorem upload_marks_and_uses_ocr :
    (∀ f : StoredFile, f.directText = none → uploadNeedsOCR f = true) ∧
    (∀ (f : StoredFile) (t : String), f.directText = some t → t.trim = "" →
      uploadNeedsOCR f = true) ∧
    (∀ (store : FileStore) (paper : UploadedPaper) (f : StoredFile) (t : String),
      paper.needsOCR = true → FileStore.find store paper.fileId = some f →
      (runOCR paper.fileId f).fst = .ok t →
      (parsePaper store paper).fst =
        .ok (some ⟨t, paper.subject, paper.year, paper.originalName⟩)) := by
  refine ⟨?_, ?_, ?_⟩
  · intro f h; simp [uploadNeedsOCR, h]
  · intro f t h ht; simp [uploadNeedsOCR, h, ht]
  · intro store paper f t hocr hfind hrun
    rcases hr : runOCR paper.fileId f with ⟨res, evs⟩
    rw [hr] at hrun
    simp only at hrun
    subst hrun
    simp [parsePaper, hfind, hocr, hr]

/-- Witness for C5: a corrupt scanned file is marked and OCR text is used. -/
theorem upload_marks_and_uses_ocr_witness :
    uploadNeedsOCR scanFile = true ∧
    (parsePaper store5 paper2).fst =
      .ok (some ⟨"Scanned question" ++ "\n" ++ "", "History", 2024, "scan.pdf"⟩) :=
  ⟨upload_marks_and_uses_ocr.1 scanFile rfl,
   upload_marks_and_uses_ocr.2.2 store5 paper2 scanFile ("Scanned question" ++ "\n" ++ "")
     rfl rfl rfl⟩

/-- C6, counterexample: in an authenticated request whose history store is
down, the caller receives the provider-error 500, not the successful
analysis result — the `AnalysisHistory.create` failure is caught by
`catch (apiError)` before `res.json` runs. -/
theorem persist_failure_cex :
    (analyze env6 [paper1] "gemini").fst =
      .serverError "Error analyzing with GEMINI API. Please check your API key and try again." ∧
    (analyze env6 [paper1] "gemini").fst ≠
      .success "ANALYSIS" (papersText [parsed1]) (renderPrompt [parsed1]) := by
  have h1 : (analyze env6 [paper1] "gemini").fst =
      .serverError "Error analyzing with GEMINI API. Please check your API key and try again." := by
    decide
  exact ⟨h1, by rw [h1]; simp⟩

/-- C6, amended: if persisting the AnalysisHistory record fails for an
authenticated analyze request that has otherwise succeeded, the failure is
not merely logged: it fails the response, which becomes the 500
"Error analyzing with MODEL API" provider error instead of the analysis
result. -/
theorem persist_failure_fails_response (env : Env) (papers : List UploadedPaper)
    (model uid : String) (l : List ParsedPaper) (evs : List Event) (a : String)
    (hne : papers.isEmpty = false)
    (hparse : parsePapers env.store papers = (.ok l, evs))
    (hl : l.isEmpty = false)
    (hm : supportedModel model = true)
    (hllm : env.llm (strToLower model)
      (generatePrompt (papersText l) (isMathSubject l)) = .ok a)
    (hu : env.userId = some uid)
    (hp : env.persistOk = false) :
    (analyze env papers model).fst =
      .serverError ("Error analyzing with " ++ strToUpper model ++
        " API. Please check your API key and try again.") := by
  simp only [analyze, hne, Bool.false_eq_true, if_false, hparse, hl, hm, if_true, hllm,
    hu, hp]

/-- Witness for C6 at a concrete authenticated run. -/
theorem persist_failure_fails_response_witness :
    (analyze env6 [paper1] "gemini").fst =
      .serverError ("Error analyzing with " ++ strToUpper "gemini" ++
        " API. Please check your API key and try again.") :=
  persist_failure_fails_response env6 [paper1] "gemini" "u1" [parsed1] [.fileRead "f1"]
    "ANALYSIS" rfl rfl rfl rfl rfl rfl rfl

/-- C7: every rasterization in any analyze run uses the fixed 2200×3000
resolution; and for a paper all of whose pages recognize successfully, the
pages are recognized independently in order and the per-page results are
concatenated in page order, each followed by a separating newline. -/
theorem ocr_resolution_and_page_order :
    (∀ env papers model, ∀ e ∈ (analyze env papers model).snd,
      ∀ id w h, e = .rasterize id w h → w = 2200 ∧ h = 3000) ∧
    (∀ fid (f : StoredFile) (ts : List String), f.pages = some (ts.map some) →
      ∃ s, runOCR fid f = (.ok s, .rasterize fid 2200 3000 :: pageEvents fid 0 ts.length) ∧
        s.data = (ts.map fun t => t.data ++ ['\n']).flatten) := by
  constructor
  · intro env papers model e he id w h heq
    subst heq
    rcases analyze_events env papers model _ he with
      ⟨id2, h2⟩ | ⟨id2, h2⟩ | ⟨id2, j2, h2⟩ | h2 | ⟨uid, l, pr, pt, a, hu, h2⟩ | ⟨id2, h2⟩
    · simp at h2
    · rw [Event.rasterize.injEq] at h2
      exact ⟨h2.2.1, h2.2.2⟩
    · simp at h2
    · simp at h2
    · simp at h2
    · simp at h2
  · intro fid f ts hp
    obtain ⟨s, hs, hdata⟩ := runPages_all_ok fid ts 0
    exact ⟨s, by simp only [runOCR, hp, hs], hdata⟩

/-- Witness for C7 at a concrete one-page scanned file. -/
theorem ocr_resolution_and_page_order_witness :
    (2200 = 2200 ∧ 3000 = 3000) ∧
    ∃ s, runOCR "f2" scanFile =
        (.ok s, .rasterize "f2" 2200 3000 :: pageEvents "f2" 0 1) ∧
      s.data = (["Scanned question"].map fun t => t.data ++ ['\n']).flatten :=
  ⟨ocr_resolution_and_page_order.1 envOCR [paper2] "gemini" (.rasterize "f2" 2200 3000)
      (by decide) "f2" 2200 3000 rfl,
   ocr_resolution_and_page_order.2 "f2" scanFile ["Scanned question"] rfl⟩

/-- C8: the Paper Assembler / Prompt Builder is deterministic — two runs over
ParsedPaper sequences with identical fields produce byte-identical prompt
strings. -/
theorem renderPrompt_deterministic (ps qs : List ParsedPaper)
    (h : ps.map (fun p => (p.text, p.subject, p.year, p.originalName)) =
         qs.map (fun p => (p.text, p.subject, p.year, p.originalName))) :
    (renderPrompt ps).data = (renderPrompt qs).data := by
  rw [parsedPaper_fields_inj ps qs h]

/-- Witness for C8 on a concrete two-paper input. -/
theorem renderPrompt_deterministic_witness :
    (renderPrompt [parsed1, parsed2]).data = (renderPrompt [parsed1, parsed2]).data :=
  renderPrompt_deterministic [parsed1, parsed2] [parsed1, parsed2] rfl

/-- C9: `parsePapers` silently skips every requested paper whose fileId has
no stored file, preserving the relative order of the survivors, and when
every requested paper is skipped the analyze endpoint rejects the request
with the "No valid papers found for analysis" input error, with an empty
event trace (no prompt built, no provider contacted). -/
theorem parsePapers_skip_missing :
    (∀ (store : FileStore) (papers : List UploadedPaper) (l : List ParsedPaper),
      (parsePapers store papers).fst = .ok l →
      l.map (fun pp => (pp.originalName, pp.subject, pp.year)) =
        (papers.filter fun p => (FileStore.find store p.fileId).isSome).map
          (fun p => (p.originalName, p.subject, p.year))) ∧
    (∀ (store : FileStore) (papers : List UploadedPaper),
      (papers.all fun p => (FileStore.find store p.fileId).isNone) = true →
      parsePapers store papers = (.ok [], [])) ∧
    (∀ (env : Env) (papers : List UploadedPaper) (model : String),
      papers.isEmpty = false →
      (papers.all fun p => (FileStore.find env.store p.fileId).isNone) = true →
      analyze env papers model = (.badRequest "No valid papers found for analysis", [])) := by
  refine ⟨fun store papers => parsePapers_ok_names store papers, parsePapers_all_missing, ?_⟩
  intro env papers model hne hall
  simp [analyze, hne, parsePapers_all_missing env.store papers hall]

/-- Witness for C9: a missing paper is skipped; an all-missing request is rejected. -/
theorem parsePapers_skip_missing_witness :
    [parsed1].map (fun pp => (pp.originalName, pp.subject, pp.year)) =
      (([missPaper, paper1]).filter fun p => (FileStore.find store0 p.fileId).isSome).map
        (fun p => (p.originalName, p.subject, p.year)) ∧
    analyze env0 [missPaper] "gemini" =
      (.badRequest "No valid papers found for analysis", []) :=
  ⟨parsePapers_skip_missing.1 store0 [missPaper, paper1] [parsed1] (by decide),
   parsePapers_skip_missing.2.2 env0 [missPaper] "gemini" rfl (by decide)⟩

/-- C10: every AnalysisHistory record the analyze endpoint attempts to
persist stores `needsOCR = false` for every entry of `papersInfo`,
regardless of whether OCR was used for that paper. -/
theorem history_record_needsOCR_false (env : Env) (papers : List UploadedPaper)
    (model : String) :
    ((analyze env papers model).snd.all fun e =>
      match e with
      | .persist r => r.papersInfo.all fun info => info.needsOCR == false
      | _ => true) = true := by
  rw [List.all_eq_true]
  intro e he
  rcases analyze_events env papers model e he with
    ⟨id, h⟩ | ⟨id, h⟩ | ⟨id, j, h⟩ | h | ⟨uid, l, pr, pt, a, hu, h⟩ | ⟨id, h⟩ <;> subst h
  · rfl
  · rfl
  · rfl
  · rfl
  · simp [mkHistoryRecord, List.all_map, Function.comp]
  · rfl
